import Mathlib

/-! Verification of the two MPI programs of this repository:
`matrix_add_v2.c` (scatter of two 48-element arrays, elementwise sum,
collection of (hostname, sums) pairs on tags 42/43) and
`scatter_matrix_mult.c` (scatter of a 16x16 matrix, broadcast of a vector,
row-block times vector, collection of result blocks on tag 45).
The embedding is a shallow one: loops over arrays become list operations,
per-rank control flow becomes functions of `(np, me)`, and the
communication behaviour of a rank is recorded as an event trace. -/

/-- Communication primitives issued by the two programs. -/
inductive CommOp
  | scatter
  | bcast
  | send
  | recv
  deriving DecidableEq

/-- One event of a rank's run: either the configuration check fails and the
process finalizes and exits, or a communication call is issued. -/
inductive Ev
  | configError
  | op (o : CommOp)
  deriving DecidableEq

/-- A point-to-point receive as posted by the coordinator: source rank and tag. -/
structure Msg where
  src : Nat
  tag : Nat
  deriving DecidableEq

/-- Contiguous chunk `r` of size `size` of a list: the elements with indices
in `[r*size, (r+1)*size)`.  This is the slice MPI_Scatter delivers to rank
`r` when the send count per rank is `size`. -/
def chunk (xs : List Int) (size r : Nat) : List Int :=
  (xs.drop (r * size)).take size

/-- Membership of index `m` in the index interval of partition `r`. -/
def inPart (r size m : Nat) : Prop := r * size ≤ m ∧ m < (r + 1) * size

namespace MatrixAdd

/-- MAXPROC, line 17 of matrix_add_v2.c. -/
def MAXPROC : Nat := 8

/-- LENGTH, line 19. -/
def LENGTH : Nat := 48

/-- nametag, line 23. -/
def nametag : Nat := 42

/-- datatag, line 24. -/
def datatag : Nat := 43

/-- Array A, lines 46-48: A[i] = i. -/
def Alist : List Int := (List.range LENGTH).map (fun i => ((i : Nat) : Int))

/-- Array B, lines 51-53: B[i] = LENGTH + i. -/
def Blist : List Int := (List.range LENGTH).map (fun i => ((LENGTH + i : Nat) : Int))

/-- The configuration check of lines 56 and 108: the run is valid iff
`np <= MAXPROC` and `LENGTH % np == 0` (the code errors on the negation). -/
def validConfig (np : Nat) : Bool :=
  decide (np ≤ MAXPROC) && decide (LENGTH % np = 0)

/-- The compute loop of the coordinator branch, lines 71-73:
localSum[i] = localA[i] + localB[i]. -/
def rootCompute (a b : List Int) : List Int :=
  List.zipWith (fun x y => x + y) a b

/-- The compute loop of the worker branch, lines 120-122 (textually the same
loop as the coordinator's). -/
def workerCompute (a b : List Int) : List Int :=
  List.zipWith (fun x y => x + y) a b

/-- The compute step executed by rank `me`: the coordinator branch's loop if
`me = 0`, the worker branch's loop otherwise. -/
def localComputeAt (me : Nat) (a b : List Int) : List Int :=
  if me = 0 then rootCompute a b else workerCompute a b

/-- Rank `r`'s localSum after the two scatters (lines 67-68/116-117) and its
compute loop: the elementwise sum of its chunks of A and B. -/
def localSumOf (np r : Nat) : List Int :=
  localComputeAt r (chunk Alist (LENGTH / np) r) (chunk Blist (LENGTH / np) r)

/-- The consolidated sequence of all ranks' sums in ascending rank order
(Scenario A's conceptual FinalResult). -/
def consolidated (np : Nat) : List Int :=
  (List.range np).flatMap (fun r => localSumOf np r)

/-- Event trace of rank `me`: both branches run the configuration check
before any communication (lines 56 and 108); on success the coordinator
issues two scatters then two receives per other rank (lines 67-68, 92-94),
a worker issues two scatters then two sends (lines 116-117, 141-144). -/
def trace (np me : Nat) : List Ev :=
  if me = 0 then
    if validConfig np then
      [Ev.op CommOp.scatter, Ev.op CommOp.scatter] ++
        (List.range' 1 (np - 1)).flatMap (fun _ => [Ev.op CommOp.recv, Ev.op CommOp.recv])
    else [Ev.configError]
  else
    if validConfig np then
      [Ev.op CommOp.scatter, Ev.op CommOp.scatter, Ev.op CommOp.send, Ev.op CommOp.send]
    else [Ev.configError]

/-- Exit status of rank `me`: every path of the program calls exit(0)
(lines 60, 110 and 150), for valid and invalid configurations alike. -/
def exitCode (np me : Nat) : Nat :=
  if me = 0 then
    if validConfig np then 0 else 0
  else
    if validConfig np then 0 else 0

/-- Whether rank `me` prints the usage diagnostic: only the coordinator
branch's check prints (line 57); the worker branch's check (lines 108-111)
exits silently. -/
def printsUsage (np me : Nat) : Bool :=
  decide (me = 0) && !validConfig np

/-- The coordinator's receive sequence, lines 92-94: for each rank i in
ascending order, the hostname on `nametag` then the sums on `datatag`,
both with explicit source i. -/
def recvSeq (np : Nat) : List Msg :=
  (List.range' 1 (np - 1)).flatMap (fun i => [⟨i, nametag⟩, ⟨i, datatag⟩])

/-- The coordinator's mutable state during the collection loop:
the hostname array (modelled as a table of synthetic host labels),
the single localSum buffer (line 35) that each receive overwrites,
and the log of printed (rank, identity, sums) lines. -/
structure CollectSt where
  tbl : Nat → Nat
  buf : List Int
  log : List (Nat × Nat × List Int)

/-- One iteration of the collection loop (lines 92-101): receive rank i's
identity into hostname[i], receive its sums into the shared localSum
buffer, then print rank, hostname[i] and the buffer. `ident` gives the
synthetic host label each rank sends. -/
def collectStep (np : Nat) (ident : Nat → Nat) (st : CollectSt) (i : Nat) : CollectSt :=
  let t := Function.update st.tbl i (ident i)
  let b := localSumOf np i
  ⟨t, b, st.log ++ [(i, t i, b)]⟩

/-- The full collection loop over ranks 1..np-1, started after the
coordinator stored its own sums in localSum (lines 71-73). -/
def collectRun (np : Nat) (ident : Nat → Nat) : CollectSt :=
  (List.range' 1 (np - 1)).foldl (collectStep np ident) ⟨fun _ => 0, localSumOf np 0, []⟩

end MatrixAdd

namespace ScatterMult

/-- N, line 11 of scatter_matrix_mult.c. -/
def N : Nat := 16

/-- resulttag, line 16. -/
def resulttag : Nat := 45

/-- rows_per_proc = N / np, line 40. -/
def rows_per_proc (np : Nat) : Nat := N / np

/-- matA[i][j] = i * N + j, line 48.  All values occurring in this program
are integers of magnitude below 2^24, for which IEEE single precision
arithmetic is exact, so the float data is modelled over Int. -/
def matA (i j : Nat) : Int := ((i * N + j : Nat) : Int)

/-- matX[i] = i + 1, line 50. -/
def matX (i : Nat) : Int := ((i + 1 : Nat) : Int)

/-- The full matrix as its list of rows. -/
def matAList : List (List Int) :=
  (List.range N).map (fun i => (List.range N).map (fun j => matA i j))

/-- The broadcast vector as a list. -/
def matXList : List Int := (List.range N).map (fun i => matX i)

/-- The inner dot-product loop (lines 79-81 and 114-116): a running sum,
started at 0, of localA[i][j] * matX[j] over j. -/
def dotRow (row x : List Int) : Int :=
  (List.zipWith (fun a b => a * b) row x).foldl (fun acc p => acc + p) 0

/-- The coordinator branch's compute loop, lines 77-82. -/
def rootCompute (rows : List (List Int)) (x : List Int) : List Int :=
  rows.map (fun row => dotRow row x)

/-- The worker branch's compute loop, lines 112-117 (textually the same). -/
def workerCompute (rows : List (List Int)) (x : List Int) : List Int :=
  rows.map (fun row => dotRow row x)

/-- The compute step executed by rank `me`. -/
def localComputeAt (me : Nat) (rows : List (List Int)) (x : List Int) : List Int :=
  if me = 0 then rootCompute rows x else workerCompute rows x

/-- The block of rows MPI_Scatter with count rows_per_proc * N delivers to
rank k (lines 69-71 and 104-106), at row granularity. -/
def scatterRows (np k : Nat) : List (List Int) :=
  (matAList.drop (k * rows_per_proc np)).take (rows_per_proc np)

/-- Rank k's localResult after scatter, broadcast and its compute loop. -/
def localResultOf (np k : Nat) : List Int :=
  localComputeAt k (scatterRows np k) matXList

/-- Overwrite `res[off .. off + blk.length)` with `blk`. -/
def placeBlock (res : List Int) (off : Nat) (blk : List Int) : List Int :=
  res.take off ++ blk ++ res.drop (off + blk.length)

/-- The FinalResult assembled on the coordinator for np = 4: its own block
copied to offset 0 (lines 85-87), then each rank i's block received into
result[i * rows_per_proc] (lines 90-93), in ascending rank order. -/
def finalResult : List Int :=
  (List.range' 1 3).foldl
    (fun res i => placeBlock res (i * rows_per_proc 4) (localResultOf 4 i))
    (placeBlock (List.replicate N 0) 0 (localResultOf 4 0))

/-- The coordinator's receive sequence (lines 90-93): a single numeric
payload message per rank, all on `resulttag`; no identity message exists
in this program (the hostname array of line 21 is never filled). -/
def recvSeq (np : Nat) : List Msg :=
  (List.range' 1 (np - 1)).map (fun i => ⟨i, resulttag⟩)

/-- Event trace of rank `me`: this program has no configuration check;
every rank goes straight to scatter and broadcast (lines 69-74, 104-109),
then the coordinator receives one block per other rank (lines 90-93) and
a worker sends its block (lines 126-127). -/
def trace (np me : Nat) : List Ev :=
  if me = 0 then
    [Ev.op CommOp.scatter, Ev.op CommOp.bcast] ++
      (List.range' 1 (np - 1)).map (fun _ => Ev.op CommOp.recv)
  else
    [Ev.op CommOp.scatter, Ev.op CommOp.bcast, Ev.op CommOp.send]

/-- Exit status: the single return 0 at line 131, on every path. -/
def exitCode (_np _me : Nat) : Nat := 0

/-- No rank of this program ever prints a usage diagnostic: there is no
configuration check. -/
def printsUsage (_np _me : Nat) : Bool := false

/-- Capacity of localA, declared float localA[N/4][N] at line 26. -/
def localACapacity : Nat := (N / 4) * N

/-- Capacity of localResult, declared float localResult[N/4] at line 27. -/
def localResultCapacity : Nat := N / 4

/-- The scatter receive count rows_per_proc * N used at lines 69-71 and
104-106, computed from the actual group size with no validation. -/
def recvCount (np : Nat) : Nat := rows_per_proc np * N

/-- All localA and localResult accesses of the scatter and compute phases
are in bounds: the scatter writes recvCount elements into localA, and the
compute loop indexes localA[i] and localResult[i] for i < rows_per_proc. -/
def inBounds (np : Nat) : Bool :=
  decide (recvCount np ≤ localACapacity) && decide (rows_per_proc np ≤ localResultCapacity)

end ScatterMult

/-! Helper lemmas about chunking, the collection loop and buffer sizes. -/

/-- Indexing into a chunk reads the underlying list at the offset index. -/
theorem chunk_getElem? (xs : List Int) (size r k : Nat) (hk : k < size) :
    (chunk xs size r)[k]? = xs[r * size + k]? := by
  unfold chunk
  rw [List.getElem?_take_of_lt hk, List.getElem?_drop]

/-- Index intervals of two partitions with the lower rank first are disjoint. -/
theorem inPart_lt_disjoint (r s size m : Nat) (hrs : r < s) :
    ¬(inPart r size m ∧ inPart s size m) := by
  rintro ⟨⟨_, hr2⟩, hs1, _⟩
  have h1 : (r + 1) * size ≤ s * size := Nat.mul_le_mul_right size hrs
  exact absurd (lt_of_lt_of_le hr2 (le_trans h1 hs1)) (lt_irrefl m)

/-- Concatenating the first `n` chunks yields the first `n * size` elements. -/
theorem chunks_join (xs : List Int) (size : Nat) (n : Nat) :
    (List.range n).flatMap (fun r => chunk xs size r) = xs.take (n * size) := by
  induction n with
  | zero => simp
  | succ n ih =>
      rw [List.range_succ, List.flatMap_append, ih, Nat.succ_mul, List.take_add]
      simp [chunk]

/-- Each of the first `np` chunks of a list of length `np * size` has length
`size`. -/
theorem chunk_length_of_lt (xs : List Int) (np size r : Nat) (hr : r < np)
    (hlen : np * size = xs.length) : (chunk xs size r).length = size := by
  have h1 : (r + 1) * size ≤ np * size := Nat.mul_le_mul_right size hr
  rw [Nat.succ_mul] at h1
  unfold chunk
  rw [List.length_take, List.length_drop]
  omega

/-- Each rank's localSum in matrix_add_v2 has exactly LENGTH / np elements. -/
theorem localSumOf_length (np r : Nat) (hr : r < np) (hdvd : np ∣ 48) :
    (MatrixAdd.localSumOf np r).length = 48 / np := by
  have hA : MatrixAdd.Alist.length = 48 := by
    simp [MatrixAdd.Alist, MatrixAdd.LENGTH]
  have hB : MatrixAdd.Blist.length = 48 := by
    simp [MatrixAdd.Blist, MatrixAdd.LENGTH]
  have hlenA : np * (48 / np) = MatrixAdd.Alist.length := by
    rw [hA]; exact Nat.mul_div_cancel' hdvd
  have hlenB : np * (48 / np) = MatrixAdd.Blist.length := by
    rw [hB]; exact Nat.mul_div_cancel' hdvd
  have hcA := chunk_length_of_lt MatrixAdd.Alist np (48 / np) r hr hlenA
  have hcB := chunk_length_of_lt MatrixAdd.Blist np (48 / np) r hr hlenB
  unfold MatrixAdd.localSumOf MatrixAdd.localComputeAt
  have hL : MatrixAdd.LENGTH = 48 := rfl
  rw [hL]
  split <;>
    simp [MatrixAdd.rootCompute, MatrixAdd.workerCompute, hcA, hcB]

/-- The printed log of the collection loop: one line per processed rank, in
list order, each carrying that rank's identity and that rank's sums. -/
theorem collect_foldl_log (np : Nat) (ident : Nat → Nat) :
    ∀ (l : List Nat) (st : MatrixAdd.CollectSt),
      (l.foldl (MatrixAdd.collectStep np ident) st).log
        = st.log ++ l.map (fun i => (i, ident i, MatrixAdd.localSumOf np i)) := by
  intro l
  induction l with
  | nil => intro st; simp
  | cons j l ih =>
      intro st
      rw [List.foldl_cons, ih]
      simp [MatrixAdd.collectStep]

/-- The hostname table after the collection loop: slot i holds rank i's
identity if i was processed, and is untouched otherwise. -/
theorem collect_foldl_tbl (np : Nat) (ident : Nat → Nat) :
    ∀ (l : List Nat) (st : MatrixAdd.CollectSt) (i : Nat),
      (i ∈ l → (l.foldl (MatrixAdd.collectStep np ident) st).tbl i = ident i)
      ∧ (i ∉ l → (l.foldl (MatrixAdd.collectStep np ident) st).tbl i = st.tbl i) := by
  intro l
  induction l with
  | nil =>
      intro st i
      exact ⟨fun h => absurd h (List.not_mem_nil i), fun _ => rfl⟩
  | cons j l ih =>
      intro st i
      rw [List.foldl_cons]
      constructor
      · intro hi
        by_cases hil : i ∈ l
        · exact (ih _ i).1 hil
        · have hij : i = j := by
            rcases List.mem_cons.mp hi with h | h
            · exact h
            · exact absurd h hil
          rw [(ih _ i).2 hil]
          subst hij
          simp [MatrixAdd.collectStep]
      · intro hi
        have hij : i ≠ j := by
          intro h
          exact hi (by simp [h])
        have hil : i ∉ l := by
          intro h
          exact hi (by simp [h])
        rw [(ih _ i).2 hil]
        simp [MatrixAdd.collectStep, Function.update_noteq hij]

/-! Claim theorems. -/

/-- C1 (amended): in matrix_add_v2 every rank (coordinator and workers
alike) runs the configuration check and, on violation, terminates before
issuing any scatter, send or receive; scatter_matrix_mult performs no
configuration validation at all — every rank's trace is free of a
configuration error event and unconditionally contains a scatter call. -/
theorem config_check_before_comm :
    (∀ np me, MatrixAdd.validConfig np = false →
      MatrixAdd.trace np me = [Ev.configError])
    ∧ (∀ np me, Ev.configError ∉ ScatterMult.trace np me
        ∧ Ev.op CommOp.scatter ∈ ScatterMult.trace np me) := by
  constructor
  · intro np me hv
    simp [MatrixAdd.trace, hv]
  · intro np me
    constructor
    · unfold ScatterMult.trace
      split <;> simp
    · unfold ScatterMult.trace
      split <;> simp

/-- C1 witness: np = 5 is invalid for matrix_add_v2 (48 % 5 ≠ 0) and rank 1
stops with only the configuration error event; in scatter_matrix_mult
rank 0 issues a scatter with no prior check even at np = 3. -/
theorem config_check_before_comm_witness :
    (MatrixAdd.validConfig 5 = false ∧ MatrixAdd.trace 5 1 = [Ev.configError])
    ∧ (Ev.configError ∉ ScatterMult.trace 3 0
        ∧ Ev.op CommOp.scatter ∈ ScatterMult.trace 3 0) :=
  ⟨⟨by decide, config_check_before_comm.1 5 1 (by decide)⟩,
   config_check_before_comm.2 3 0⟩

/-- C1 counterexample: with P = 3 the row count 16 of scatter_matrix_mult
is not divisible by P, yet no rank detects any violation — rank 0 and
rank 1 both issue communication calls and no configuration error event
occurs in any trace. -/
theorem no_config_check_in_scatter_mult_cex :
    ScatterMult.N % 3 ≠ 0
    ∧ Ev.configError ∉ ScatterMult.trace 3 0
    ∧ Ev.op CommOp.scatter ∈ ScatterMult.trace 3 0
    ∧ Ev.op CommOp.scatter ∈ ScatterMult.trace 3 1 := by decide

/-- C2: for N = 16 and P = 4 the FinalResult assembled on rank 0 equals the
full matrix-vector product A·X — entry r is the sum over j of A[r][j]*X[j]
— and rank i's block sits at offset i * (N/P) of the result. -/
theorem scenarioB_matvec_result :
    ScatterMult.finalResult
      = (List.range ScatterMult.N).map
          (fun r => (((List.range ScatterMult.N).map
              (fun j => ScatterMult.matA r j * ScatterMult.matX j)).sum))
    ∧ (∀ i, i < 4 →
        (ScatterMult.finalResult.drop (i * ScatterMult.rows_per_proc 4)).take
            (ScatterMult.rows_per_proc 4)
          = ScatterMult.localResultOf 4 i)
    ∧ ScatterMult.finalResult.length = ScatterMult.N := by decide

/-- C3: for L = 48 and P = 4, each rank's chunks of A and B have 12
elements, and the consolidated sequence of all elementwise sums in
ascending rank order is [48, 50, ..., 142], i.e. entry i is 48 + 2i. -/
theorem scenarioA_consolidated :
    MatrixAdd.consolidated 4
      = (List.range 48).map (fun i => ((48 + 2 * i : Nat) : Int))
    ∧ (∀ r, r < 4 → (chunk MatrixAdd.Alist 12 r).length = 12
        ∧ (chunk MatrixAdd.Blist 12 r).length = 12
        ∧ (MatrixAdd.localSumOf 4 r).length = 12) := by decide

/-- C4 (amended): matrix_add_v2's coordinator receives, in ascending rank
order, a message pair per rank — identity on tag 42, payload on the
disjoint tag 43 — and pairing is correct: the printed log line for rank i
carries rank i's identity and rank i's sums, and hostname slot i holds
rank i's identity.  scatter_matrix_mult's coordinator instead receives a
single payload message per rank on the one tag 45, with no identity
message. -/
theorem collector_tagging (np : Nat) (ident : Nat → Nat) :
    MatrixAdd.nametag ≠ MatrixAdd.datatag
    ∧ MatrixAdd.recvSeq np
        = (List.range' 1 (np - 1)).flatMap
            (fun i => [⟨i, MatrixAdd.nametag⟩, ⟨i, MatrixAdd.datatag⟩])
    ∧ (MatrixAdd.collectRun np ident).log
        = (List.range' 1 (np - 1)).map
            (fun i => (i, ident i, MatrixAdd.localSumOf np i))
    ∧ (∀ i, 1 ≤ i → i < np → (MatrixAdd.collectRun np ident).tbl i = ident i)
    ∧ ScatterMult.recvSeq np
        = (List.range' 1 (np - 1)).map
            (fun i => (⟨i, ScatterMult.resulttag⟩ : Msg)) := by
  refine ⟨by decide, rfl, ?_, ?_, rfl⟩
  · have h := collect_foldl_log np ident (List.range' 1 (np - 1))
      ⟨fun _ => 0, MatrixAdd.localSumOf np 0, []⟩
    simpa [MatrixAdd.collectRun] using h
  · intro i h1 h2
    exact (collect_foldl_tbl np ident (List.range' 1 (np - 1)) _ i).1
      (List.mem_range'_1.mpr ⟨h1, by omega⟩)

/-- C4 witness: at np = 3 with synthetic identities 10·i, hostname slot 2
holds 20, rank 2's identity. -/
theorem collector_tagging_witness :
    (1 : Nat) ≤ 2 ∧ 2 < 3
    ∧ (MatrixAdd.collectRun 3 (fun i => 10 * i)).tbl 2 = 20 :=
  ⟨by decide, by decide,
   (collector_tagging 3 (fun i => 10 * i)).2.2.2.1 2 (by decide) (by decide)⟩

/-- C4 counterexample: in scatter_matrix_mult the coordinator's receive
sequence at P = 4 uses the single tag 45 for every message — there is no
pair of disjoint tags and no identity message at all, refuting the claim
for this program. -/
theorem single_tag_collector_cex :
    (ScatterMult.recvSeq 4).map Msg.tag = [45, 45, 45]
    ∧ ¬(∃ m, m ∈ ScatterMult.recvSeq 4
        ∧ ∃ o, o ∈ ScatterMult.recvSeq 4 ∧ m.tag ≠ o.tag) := by decide

/-- C5 (amended): both programs exit with status 0 on every path, on normal
completion and on configuration failure alike; on configuration failure
only matrix_add_v2's coordinator prints the usage diagnostic (workers exit
silently), and scatter_matrix_mult never prints one. -/
theorem exit_codes_and_diagnostics (np me : Nat) :
    MatrixAdd.exitCode np me = 0
    ∧ ScatterMult.exitCode np me = 0
    ∧ (MatrixAdd.printsUsage np me = true
        ↔ me = 0 ∧ MatrixAdd.validConfig np = false)
    ∧ ScatterMult.printsUsage np me = false := by
  refine ⟨?_, rfl, ?_, rfl⟩
  · simp [MatrixAdd.exitCode]
  · simp [MatrixAdd.printsUsage]

/-- C5 counterexample: at the invalid configuration np = 5, rank 1 of
matrix_add_v2 exits with status 0 (not nonzero) and prints no usage
diagnostic; only rank 0 prints it. -/
theorem exit_status_zero_on_failure_cex :
    MatrixAdd.validConfig 5 = false
    ∧ MatrixAdd.exitCode 5 1 = 0
    ∧ MatrixAdd.printsUsage 5 1 = false
    ∧ MatrixAdd.printsUsage 5 0 = true := by decide

/-- C6: for every valid configuration (P dividing the dataset length) the
partitioning is rank-ordered, contiguous and complete: chunk r reads
exactly the indices [r·(L/P), (r+1)·(L/P)), distinct chunks cover disjoint
index intervals, and the concatenation of the chunks in rank order is the
dataset. -/
theorem partition_complete (xs : List Int) (np : Nat) (_hnp : 0 < np)
    (hdvd : np ∣ xs.length) :
    (∀ r k, r < np → k < xs.length / np →
        (chunk xs (xs.length / np) r)[k]? = xs[r * (xs.length / np) + k]?)
    ∧ (∀ r s m, r < np → s < np → r ≠ s →
        ¬(inPart r (xs.length / np) m ∧ inPart s (xs.length / np) m))
    ∧ (List.range np).flatMap (fun r => chunk xs (xs.length / np) r) = xs := by
  refine ⟨?_, ?_, ?_⟩
  · intro r k _ hk
    exact chunk_getElem? xs (xs.length / np) r k hk
  · intro r s m _ _ hne h
    rcases Nat.lt_or_ge r s with h1 | h1
    · exact inPart_lt_disjoint r s _ m h1 h
    · rcases Nat.lt_or_ge s r with h2 | h2
      · exact inPart_lt_disjoint s r _ m h2 ⟨h.2, h.1⟩
      · exact hne (Nat.le_antisymm h2 h1)
  · rw [chunks_join xs (xs.length / np) np, Nat.mul_div_cancel' hdvd]
    exact List.take_of_length_le (Nat.le_refl _)

/-- C6 witness: the two chunks of [1, 2, 3, 4] for P = 2 concatenate back
to the dataset. -/
theorem partition_complete_witness :
    0 < 2 ∧ (2 : Nat) ∣ ([1, 2, 3, 4] : List Int).length
    ∧ (List.range 2).flatMap
        (fun r => chunk [1, 2, 3, 4] (([1, 2, 3, 4] : List Int).length / 2) r)
      = [1, 2, 3, 4] :=
  ⟨by decide, by decide,
   (partition_complete [1, 2, 3, 4] 2 (by decide) (by decide)).2.2⟩

/-- C7: the Local Compute Unit is rank-noninterferent — in both programs
the compute step is the same pure function of the local data for every
rank value; in particular the coordinator-branch loop and the
worker-branch loop denote the same function. -/
theorem local_compute_rank_noninterference :
    (∀ me me' a b, MatrixAdd.localComputeAt me a b
        = MatrixAdd.localComputeAt me' a b)
    ∧ (∀ me me' rows x, ScatterMult.localComputeAt me rows x
        = ScatterMult.localComputeAt me' rows x) := by
  constructor
  · intro me me' a b
    unfold MatrixAdd.localComputeAt
    split <;> split <;> rfl
  · intro me me' rows x
    unfold ScatterMult.localComputeAt
    split <;> split <;> rfl

/-- C8: shape preservation — the elementwise sum has as many elements as
the local partition (L/P for every rank in a valid configuration), and
the row-block times vector result has one scalar per partition row. -/
theorem shape_preservation :
    (∀ a b : List Int, a.length = b.length →
        (MatrixAdd.rootCompute a b).length = a.length)
    ∧ (∀ np r, r < np → np ∣ 48 →
        (MatrixAdd.localSumOf np r).length = 48 / np)
    ∧ (∀ rows x, (ScatterMult.rootCompute rows x).length = rows.length)
    ∧ (∀ k, k < 4 →
        (ScatterMult.localResultOf 4 k).length = ScatterMult.rows_per_proc 4) := by
  refine ⟨?_, ?_, ?_, ?_⟩
  · intro a b h
    simp [MatrixAdd.rootCompute, h]
  · intro np r hr hdvd
    exact localSumOf_length np r hr hdvd
  · intro rows x
    simp [ScatterMult.rootCompute]
  · decide

/-- C8 witness: concrete shapes for a two-element sum and rank 1's
12-element localSum at np = 4. -/
theorem shape_preservation_witness :
    (MatrixAdd.rootCompute [1, 2] [3, 4]).length = ([1, 2] : List Int).length
    ∧ (MatrixAdd.localSumOf 4 1).length = 48 / 4 :=
  ⟨shape_preservation.1 [1, 2] [3, 4] rfl,
   shape_preservation.2.1 4 1 (by decide) (by decide)⟩

/-- C9 (amended): scatter_matrix_mult's local buffers are statically sized
for N/4 rows while the receive count rows_per_proc * N comes from the
actual group size unvalidated; the scatter and compute phase accesses
stay in bounds exactly when np ≥ 4 — for every np in 1..3 the receive
count exceeds localA's capacity (so np = 4 is sufficient but not the only
safe group size: np = 8 also fits). -/
theorem buffer_bounds (np : Nat) (hnp : 0 < np) :
    (ScatterMult.inBounds np = true ↔ 4 ≤ np)
    ∧ (np < 4 → ScatterMult.localACapacity < ScatterMult.recvCount np) := by
  constructor
  · constructor
    · intro h
      by_contra h4
      have hlt : np < 4 := Nat.lt_of_not_le h4
      interval_cases np <;> exact absurd h (by decide)
    · intro h4
      have hq : ScatterMult.rows_per_proc np ≤ 4 := by
        have h5 : ScatterMult.N / np < 5 :=
          (Nat.div_lt_iff_lt_mul hnp).mpr (by
            show ScatterMult.N < 5 * np
            have hN : ScatterMult.N = 16 := rfl
            omega)
        exact Nat.lt_succ_iff.mp h5
      simp only [ScatterMult.inBounds, ScatterMult.recvCount,
        ScatterMult.localACapacity, ScatterMult.localResultCapacity,
        Bool.and_eq_true, decide_eq_true_iff]
      have hN : ScatterMult.N = 16 := rfl
      rw [hN]
      constructor
      · omega
      · omega
  · intro h4
    interval_cases np <;> decide

/-- C9 witness: at np = 2 the bounds predicate is false and the receive
count 128 exceeds localA's 64-element capacity. -/
theorem buffer_bounds_witness :
    0 < 2 ∧ ((ScatterMult.inBounds 2 = true ↔ 4 ≤ 2)
      ∧ (2 < 4 → ScatterMult.localACapacity < ScatterMult.recvCount 2)) :=
  ⟨by decide, buffer_bounds 2 (by decide)⟩

/-- C9 counterexample: np = 8 keeps every access in bounds (receive count
32 ≤ 64) although np ≠ 4, so the accesses are not in bounds *only* under
the precondition np = 4. -/
theorem buffer_bounds_only_np4_cex :
    ScatterMult.inBounds 8 = true
    ∧ ScatterMult.recvCount 8 ≤ ScatterMult.localACapacity
    ∧ ¬(8 = 4) := by decide

/-- C10: the coordinator of matrix_add_v2 receives every rank's sums into
the single localSum buffer holding its own result; after the collection
loop the buffer holds exactly the last rank's (rank np-1's) sums, and its
meaningful contents have length L/np — strictly less than L whenever
np ≥ 2 — so no consolidated length-L FinalResult is ever materialized. -/
theorem coordinator_buf_overwrite (np : Nat) (ident : Nat → Nat)
    (hnp : 0 < np) :
    (MatrixAdd.collectRun np ident).buf = MatrixAdd.localSumOf np (np - 1)
    ∧ (np ∣ 48 →
        (MatrixAdd.collectRun np ident).buf.length = 48 / np
        ∧ (2 ≤ np → (MatrixAdd.collectRun np ident).buf.length < 48)) := by
  have hbuf : (MatrixAdd.collectRun np ident).buf
      = MatrixAdd.localSumOf np (np - 1) := by
    rcases np with _ | n
    · exact absurd hnp (by decide)
    · rcases n with _ | m
      · rfl
      · unfold MatrixAdd.collectRun
        have hr : m + 2 - 1 = m + 1 := rfl
        rw [hr, List.range'_1_concat 1 m, List.foldl_append]
        simp [MatrixAdd.collectStep, Nat.add_comm]
  refine ⟨hbuf, fun hdvd => ⟨?_, ?_⟩⟩
  · rw [hbuf]
    exact localSumOf_length np (np - 1) (by omega) hdvd
  · intro h2
    rw [hbuf, localSumOf_length np (np - 1) (by omega) hdvd]
    exact Nat.div_lt_self (by omega) h2

/-- C10 witness: at np = 4 the buffer after collection is rank 3's sums,
of length 12 < 48. -/
theorem coordinator_buf_overwrite_witness :
    0 < 4 ∧ ((MatrixAdd.collectRun 4 (fun i => i)).buf
        = MatrixAdd.localSumOf 4 3
      ∧ ((4 : Nat) ∣ 48 →
          (MatrixAdd.collectRun 4 (fun i => i)).buf.length = 48 / 4
          ∧ (2 ≤ 4 → (MatrixAdd.collectRun 4 (fun i => i)).buf.length < 48))) :=
  ⟨by decide, coordinator_buf_overwrite 4 (fun i => i) (by decide)⟩
